import Mathlib

/-!
Verification of the TOC (table-of-contents) core of morituri
(`morituri/image/table.py`): track/index data model, CDDB disc-id,
AccurateRip ids and URL, boundary queries, and cue-sheet emission.

Modelling conventions:
* CD frame offsets and track numbers are natural numbers (the data model
  specifies 0-based non-negative frame offsets).
* Fallible Python code (`IndexError` on list indexing, `KeyError` on dict
  lookup, `TypeError` on arithmetic with `None`, and attribute values that
  are `None`) is modelled uniformly with `Option`: `none` is a failed query.
* Python list indexing (which accepts negative indices counting from the
  end) is modelled by `pyIdx`.
* Python `"%08x" % v` (lowercase hex, zero-padded to a *minimum* width of
  8, never truncated) is modelled by `format08x`.
-/

/-- Python list indexing `l[i]`: non-negative indices from the front,
negative indices count from the end; out of range is an `IndexError`,
modelled as `none`. -/
def pyIdx {α : Type _} (l : List α) (i : Int) : Option α :=
  if 0 ≤ i then l.get? i.toNat
  else if (-i).toNat ≤ l.length then l.get? (l.length - (-i).toNat)
  else none

/-- Python string indexing `s[i]` (same convention as `pyIdx`). -/
def pyStr (s : String) (i : Int) : Option Char :=
  pyIdx s.data i

/-- One lowercase hexadecimal digit, as produced by Python `%x`. -/
def hexChar (d : Nat) : Char :=
  if d < 10 then Char.ofNat (48 + d) else Char.ofNat (87 + d)

/-- Big-endian lowercase hexadecimal digits of `n` (empty for `n = 0`);
`fuel` bounds the recursion and any `fuel ≥ n` is exact. -/
def hexRep : Nat → Nat → List Char
  | 0, _ => []
  | fuel + 1, n => if n = 0 then [] else hexRep fuel (n / 16) ++ [hexChar (n % 16)]

/-- Lowercase hexadecimal rendering of `n`, as Python `"%x" % n`. -/
def toHex (n : Nat) : String :=
  if n = 0 then "0" else String.mk (hexRep n n)

/-- Python `"%08x" % n`: lowercase hex, zero-padded on the left to a
minimum width of 8.  Values with more than 8 hex digits are NOT truncated. -/
def format08x (n : Nat) : String :=
  String.mk (List.replicate (8 - (toHex n).length) '0' ++ (toHex n).data)

/-- Python `"%02d" % n` for non-negative `n`. -/
def format02d (n : Nat) : String :=
  String.mk (List.replicate (2 - (Nat.repr n).length) '0' ++ (Nat.repr n).data)

/-- Python `"%.3d" % n` for non-negative `n` (zero-pad to width 3). -/
def format3d (n : Nat) : String :=
  String.mk (List.replicate (3 - (Nat.repr n).length) '0' ++ (Nat.repr n).data)

/-- `c` is a lowercase hexadecimal digit. -/
def isHexLowerChar (c : Char) : Bool :=
  c.isDigit || ('a' ≤ c && c ≤ 'f')

/-- The string is exactly 8 lowercase, zero-padded hexadecimal characters. -/
def is8lowerhex (s : String) : Bool :=
  s.length == 8 && s.data.all isHexLowerChar

/-- Modelled from the spec: `FRAMES_PER_SECOND` is defined in
`morituri.common.checksum`, which is not part of the sources at hand; §3 of
the specification fixes it to 75 disc frames per second of audio. -/
def FRAMES_PER_SECOND : Nat := 75

/-- Modelled from the spec: `common.framesToMSF` is defined in
`morituri.common.common`, which is not part of the sources at hand; the
specification describes it as a frames → `MM:SS:FF` formatter with
two-digit fields (75 frames per second, 60 seconds per minute), and its
unit test fixes `framesToMSF 1000 = "00:13:25"`. -/
def framesToMSF (frames : Nat) : String :=
  format02d (frames / (FRAMES_PER_SECOND * 60)) ++ ":" ++
    format02d ((frames / FRAMES_PER_SECOND) % 60) ++ ":" ++
    format02d (frames % FRAMES_PER_SECOND)

/-- `Table._cddbSum` / `IndexTable._cddbSum`, the base-10 digit sum loop
`while i > 0: ret += i % 10; i /= 10`, with an explicit fuel argument
bounding the number of iterations (the loop runs at most `i` times since
`i` strictly decreases). -/
def cddbSumAux : Nat → Nat → Nat
  | 0, _ => 0
  | fuel + 1, i => if i = 0 then 0 else i % 10 + cddbSumAux fuel (i / 10)

/-- `_cddbSum(i)`: base-10 digit sum of the non-negative integer `i`. -/
def cddbSum (i : Nat) : Nat := cddbSumAux i i

/-- A track entry of the flat `Table`: number (1-based), start and end in
CD frames (0-based, inclusive), audio flag. -/
structure Track where
  number : Nat
  start : Nat
  «end» : Nat
  audio : Bool := true
deriving DecidableEq, Repr

/-- The flat table of contents (`class Table`). -/
structure Table where
  tracks : List Track
deriving DecidableEq, Repr

/-- `Table.getTrackStart`: `self.tracks[number - 1].start`. -/
def Table.getTrackStart (tbl : Table) (number : Nat) : Option Nat :=
  (pyIdx tbl.tracks ((number : Int) - 1)).map (·.start)

/-- `Table.getTrackEnd`: `self.tracks[number - 1].end`. -/
def Table.getTrackEnd (tbl : Table) (number : Nat) : Option Nat :=
  (pyIdx tbl.tracks ((number : Int) - 1)).map (·.«end»)

/-- `Table.getTrackLength`: `track.end - track.start + 1`. -/
def Table.getTrackLength (tbl : Table) (number : Nat) : Option Nat :=
  (pyIdx tbl.tracks ((number : Int) - 1)).map (fun t => t.«end» - t.start + 1)

/-- `Table.getAudioTracks`: `len([t for t in self.tracks if t.audio])`. -/
def Table.getAudioTracks (tbl : Table) : Nat :=
  (tbl.tracks.filter (·.audio)).length

/-- The per-track loop of `getCDDBDiscId` (identical in `Table` and
`IndexTable`), accumulating `n += _cddbSum((getTrackStart(number) + 2 *
FRAMES_PER_SECOND) / FRAMES_PER_SECOND)` over the track numbers. -/
def cddbLoop (startF : Nat → Option Nat) : List Nat → Nat → Option Nat
  | [], n => some n
  | num :: rest, n =>
    (startF num).bind fun start =>
      cddbLoop startF rest (n + cddbSum ((start + 2 * FRAMES_PER_SECOND) / FRAMES_PER_SECOND))

/-- Body of `getCDDBDiscId`, textually identical in `Table` and
`IndexTable`, abstracted over the boundary queries and the track-number
list (the loop uses only `track.number` of each track). -/
def getCDDBDiscIdG (startF endF : Nat → Option Nat) (numbers : List Nat) : Option String :=
  (cddbLoop startF numbers 0).bind fun n =>
    (pyIdx numbers (-1)).bind fun lastNum =>
      (endF lastNum).bind fun leadout =>
        (startF 1).map fun s1 =>
          let frameLength := leadout - s1
          let t := frameLength / FRAMES_PER_SECOND
          let value := ((n % 0xff) <<< 24) ||| (t <<< 8) ||| numbers.length
          format08x value

/-- The per-track loop of `getAccurateRipIds` (identical in `Table` and
`IndexTable`) over `(number, audio)` pairs: data tracks are skipped
(`continue`); for audio tracks `discId1 += offset` and
`discId2 += (offset or 1) * track.number` (Python `offset or 1` is 1 when
the offset is the falsy 0). -/
def arLoop (startF : Nat → Option Nat) : List (Nat × Bool) → Nat → Nat → Option (Nat × Nat)
  | [], d1, d2 => some (d1, d2)
  | (num, audio) :: rest, d1, d2 =>
    if audio = false then arLoop startF rest d1 d2
    else
      (startF num).bind fun offset =>
        arLoop startF rest (d1 + offset) (d2 + (if offset = 0 then 1 else offset) * num)

/-- Body of `getAccurateRipIds`, textually identical in `Table` and
`IndexTable`, abstracted over the boundary queries and the list of
`(number, audio)` pairs of the tracks. -/
def getAccurateRipIdsG (startF endF : Nat → Option Nat) (tracksNA : List (Nat × Bool)) :
    Option (String × String) :=
  (arLoop startF tracksNA 0 0).bind fun d =>
    (pyIdx tracksNA (-1)).bind fun lastNA =>
      (endF lastNA.1).map fun e =>
        let offset := e + 1
        let discId1 := (d.1 + offset) &&& 0xffffffff
        let discId2 := (d.2 + offset * ((tracksNA.filter (fun p => p.2)).length + 1)) &&& 0xffffffff
        (format08x discId1, format08x discId2)

/-- Body of `getAccurateRipURL`, textually identical in `Table` and
`IndexTable`: `".../accuraterip/%s/%s/%s/dBAR-%.3d-%s-%s-%s.bin" %
(discId1[-1], discId1[-2], discId1[-3], len(tracks), discId1, discId2,
getCDDBDiscId())`. -/
def getAccurateRipURLG (ids : Option (String × String)) (cddb : Option String)
    (trackCount : Nat) : Option String :=
  ids.bind fun d =>
    (pyStr d.1 (-1)).bind fun c1 =>
      (pyStr d.1 (-2)).bind fun c2 =>
        (pyStr d.1 (-3)).bind fun c3 =>
          cddb.map fun cddbId =>
            "http://www.accuraterip.com/accuraterip/" ++ String.singleton c1 ++ "/" ++
              String.singleton c2 ++ "/" ++ String.singleton c3 ++ "/dBAR-" ++
              format3d trackCount ++ "-" ++ d.1 ++ "-" ++ d.2 ++ "-" ++ cddbId ++ ".bin"

/-- `Table.getCDDBDiscId`. -/
def Table.getCDDBDiscId (tbl : Table) : Option String :=
  getCDDBDiscIdG tbl.getTrackStart tbl.getTrackEnd (tbl.tracks.map (·.number))

/-- `Table.getAccurateRipIds`. -/
def Table.getAccurateRipIds (tbl : Table) : Option (String × String) :=
  getAccurateRipIdsG tbl.getTrackStart tbl.getTrackEnd
    (tbl.tracks.map (fun t => (t.number, t.audio)))

/-- `Table.getAccurateRipURL`. -/
def Table.getAccurateRipURL (tbl : Table) : Option String :=
  getAccurateRipURLG tbl.getAccurateRipIds tbl.getCDDBDiscId tbl.tracks.length

/-- Track numbers are exactly `1..N` in order (the §3 construction
invariant "track numbers are exactly 1..N with no gaps"). -/
def Table.validNumbering (tbl : Table) : Bool :=
  tbl.tracks.enum.all fun p => p.2.number == p.1 + 1

/-- `class Index`: a named position inside a track; `absolute` may be
unset (`None`). -/
structure Index where
  number : Nat
  absolute : Option Nat := none
  path : String := ""
  relative : Nat := 0
  counter : Option Nat := none
deriving DecidableEq, Repr

/-- `class ITTrack`: a track of the `IndexTable`.  The Python `indexes`
dict (index number → `Index`) is modelled as its entry list, whose entries
carry unique `number` keys. -/
structure ITTrack where
  number : Nat
  audio : Bool := true
  indexes : List Index := []
deriving DecidableEq, Repr

/-- `ITTrack.getIndex`: dict lookup `self.indexes[number]`; a missing key
(`KeyError`) is `none`. -/
def ITTrack.getIndex (t : ITTrack) (number : Nat) : Option Index :=
  t.indexes.find? (fun i => i.number == number)

/-- Insertion step of the insertion sort used to model Python
`keys.sort()` (entries ordered by their index number). -/
def insertByNumber (i : Index) : List Index → List Index
  | [] => [i]
  | j :: js => if i.number ≤ j.number then i :: j :: js else j :: insertByNumber i js

/-- The dict entries sorted by ascending index number.  Since the dict
keys are unique, iterating `for number in sorted(keys): index =
indexes[number]` visits exactly these entries in this order. -/
def sortIndexes : List Index → List Index
  | [] => []
  | i :: is => insertByNumber i (sortIndexes is)

/-- `ITTrack.getFirstIndex`: sorts the key list and returns the index with
the smallest number (`none` when the track has no indexes yet). -/
def ITTrack.getFirstIndex (t : ITTrack) : Option Index :=
  match sortIndexes t.indexes with
  | [] => none
  | i :: _ => some i

/-- `class IndexTable`: tracks plus the leadout offset, which starts out
unset (`None`). -/
structure IndexTable where
  tracks : List ITTrack
  leadout : Option Nat := none
deriving DecidableEq, Repr

/-- `IndexTable.getTrackStart`: `self.tracks[number - 1].getIndex(1).absolute`.
A missing track (`IndexError`), a missing index 1 (`KeyError`) and an
unset absolute position (the Python method would return `None`, on which
every caller immediately performs arithmetic) are all `none`. -/
def IndexTable.getTrackStart (tbl : IndexTable) (number : Nat) : Option Nat :=
  (pyIdx tbl.tracks ((number : Int) - 1)).bind fun track =>
    (track.getIndex 1).bind fun idx => idx.absolute

/-- `IndexTable.getTrackEnd`: first computes `end = self.leadout - 1`
unconditionally (a `TypeError` when the leadout is unset, hence the
leading bind), then overwrites it with
`self.tracks[number].getIndex(1).absolute - 1` (index 1 of the NEXT track)
when `number < len(self.tracks)`. -/
def IndexTable.getTrackEnd (tbl : IndexTable) (number : Nat) : Option Nat :=
  tbl.leadout.bind fun l =>
    if h : number < tbl.tracks.length then
      ((tbl.tracks.get ⟨number, h⟩).getIndex 1).bind fun idx =>
        idx.absolute.map fun a => a - 1
    else
      some (l - 1)

/-- `IndexTable.getTrackLength`: fetches `self.tracks[number - 1]` (an
`IndexError` when out of range), then returns
`getTrackEnd(number) - getTrackStart(number) + 1`. -/
def IndexTable.getTrackLength (tbl : IndexTable) (number : Nat) : Option Nat :=
  (pyIdx tbl.tracks ((number : Int) - 1)).bind fun _track =>
    (tbl.getTrackEnd number).bind fun e =>
      (tbl.getTrackStart number).map fun s => e - s + 1

/-- `IndexTable.getAudioTracks`. -/
def IndexTable.getAudioTracks (tbl : IndexTable) : Nat :=
  (tbl.tracks.filter (·.audio)).length

/-- `IndexTable.getCDDBDiscId` (same body as `Table.getCDDBDiscId`). -/
def IndexTable.getCDDBDiscId (tbl : IndexTable) : Option String :=
  getCDDBDiscIdG tbl.getTrackStart tbl.getTrackEnd (tbl.tracks.map (·.number))

/-- `IndexTable.getAccurateRipIds` (same body as `Table.getAccurateRipIds`). -/
def IndexTable.getAccurateRipIds (tbl : IndexTable) : Option (String × String) :=
  getAccurateRipIdsG tbl.getTrackStart tbl.getTrackEnd
    (tbl.tracks.map (fun t => (t.number, t.audio)))

/-- `IndexTable.getAccurateRipURL` (same body as `Table.getAccurateRipURL`). -/
def IndexTable.getAccurateRipURL (tbl : IndexTable) : Option String :=
  getAccurateRipURLG tbl.getAccurateRipIds tbl.getCDDBDiscId tbl.tracks.length

/-- Track numbers of an `IndexTable` are exactly `1..N` in order. -/
def IndexTable.validNumbering (tbl : IndexTable) : Bool :=
  tbl.tracks.enum.all fun p => p.2.number == p.1 + 1

/-- `IndexTable.cue`, as the list of emitted lines: the first `FILE` line
comes from the first index of track one and binds `currentPath`, which the
loop never reassigns; each track (enumerated, 1-based position) emits a
`TRACK` line and, per index in ascending index-number order, a `FILE` line
when `index.path != currentPath` followed by its `INDEX` line; one empty
line is appended at the end. -/
def IndexTable.cueLines (tbl : IndexTable) : Option (List String) :=
  (tbl.tracks.head?).bind fun t0 =>
    (t0.getFirstIndex).map fun fi =>
      let currentPath := fi.path
      ("FILE \"" ++ currentPath ++ "\" WAVE") ::
        ((tbl.tracks.enum.map (fun p =>
          ("  TRACK " ++ format02d (p.1 + 1) ++ " AUDIO") ::
            ((sortIndexes p.2.indexes).map (fun index =>
              (if index.path = currentPath then [] else
                ["FILE \"" ++ index.path ++ "\" WAVE"]) ++
              ["    INDEX " ++ format02d index.number ++ " " ++
                framesToMSF index.relative])).flatten)).flatten
        ++ [""])

/-- `IndexTable.cue`: `"\n".join(lines)`. -/
def IndexTable.cue (tbl : IndexTable) : Option String :=
  tbl.cueLines.map (String.intercalate "\n")

-- ## Concrete tables used by witnesses and counterexamples

/-- A flat table whose total seconds value pushes the CDDB value past
2^32 (one track of 1258291200 frames = 2^24 seconds). -/
def c1Big : Table := ⟨[⟨1, 0, 1258291200, true⟩]⟩

/-- An ordinary one-track flat table (0 .. 7499 frames). -/
def c1FlatW : Table := ⟨[⟨1, 0, 7499, true⟩]⟩

/-- An ordinary one-track indexed table with resolved leadout. -/
def c1IdxW : IndexTable :=
  ⟨[⟨1, true, [⟨1, some 0, "track01.wav", 0, none⟩]⟩], some 7500⟩

/-- A two-track flat table with contiguous numbering. -/
def c2Flat : Table := ⟨[⟨1, 0, 7499, true⟩, ⟨2, 7500, 15000, true⟩]⟩

/-- A two-track indexed table (starts 0 and 1000, leadout 3000). -/
def c2Idx : IndexTable :=
  ⟨[⟨1, true, [⟨1, some 0, "track01.wav", 0, none⟩]⟩,
    ⟨2, true, [⟨1, some 1000, "track02.wav", 0, none⟩]⟩], some 3000⟩

/-- Resolved starts of `c2Idx`, by track number. -/
def c2s : Nat → Nat := fun k => if k = 1 then 0 else 1000

/-- A flat table with one audio and one data track. -/
def c3Flat : Table := ⟨[⟨1, 0, 100, true⟩, ⟨2, 101, 200, false⟩]⟩

/-- An indexed table with one audio and one data track (leadout 3000). -/
def c3Idx : IndexTable :=
  ⟨[⟨1, true, [⟨1, some 0, "track01.wav", 0, none⟩]⟩,
    ⟨2, false, [⟨1, some 1000, "track02.wav", 0, none⟩]⟩], some 3000⟩

/-- Resolved starts of `c3Idx`, by track number. -/
def c3s : Nat → Nat := fun k => if k = 1 then 0 else 1000

/-- A flat table whose first audio track starts at frame 0. -/
def c4Tbl : Table := ⟨[⟨1, 0, 100, true⟩, ⟨2, 101, 200, true⟩]⟩

/-- Three tracks over two source files: track 1 in `a.wav`, tracks 2 and 3
both in `b.wav`.  Emitting it exercises the `FILE`-line switching of
`cue()` across consecutive indices sharing one file. -/
def c5Tbl : IndexTable :=
  ⟨[⟨1, true, [⟨1, none, "a.wav", 0, none⟩]⟩,
    ⟨2, true, [⟨1, none, "b.wav", 0, none⟩]⟩,
    ⟨3, true, [⟨1, none, "b.wav", 100, none⟩]⟩], none⟩

/-- The exact table built by the repository's `WriteCueTestCase.testWrite`
unit test (two tracks, the second starting in a new file). -/
def cueTestTbl : IndexTable :=
  ⟨[⟨1, true, [⟨1, none, "track01.wav", 0, none⟩]⟩,
    ⟨2, true, [⟨0, none, "track01.wav", 1000, none⟩, ⟨1, none, "track02.wav", 0, none⟩]⟩],
   none⟩

/-- A one-track indexed table whose leadout was never resolved. -/
def c6Tbl : IndexTable := ⟨[⟨1, true, [⟨1, some 0, "x.wav", 0, none⟩]⟩], none⟩

/-- One-track flat table for the URL witness. -/
def c7Flat : Table := ⟨[⟨1, 0, 7499, true⟩]⟩

/-- Two-track indexed table for the URL witness. -/
def c7Idx : IndexTable :=
  ⟨[⟨1, true, [⟨1, some 0, "track01.wav", 0, none⟩]⟩,
    ⟨2, true, [⟨1, some 1000, "track02.wav", 0, none⟩]⟩], some 3000⟩

/-- One-track flat table with start 10 and end 20. -/
def c8Flat : Table := ⟨[⟨1, 10, 20, true⟩]⟩

/-- Two-track indexed table with starts 100 and 1000 (leadout 2000). -/
def c8Idx : IndexTable :=
  ⟨[⟨1, true, [⟨1, some 100, "track01.wav", 0, none⟩]⟩,
    ⟨2, true, [⟨1, some 1000, "track02.wav", 0, none⟩]⟩], some 2000⟩

/-- One-track flat table for the non-empty success witness. -/
def c9W : Table := ⟨[⟨1, 0, 7499, true⟩]⟩

/-- Two-track indexed table with unresolved leadout but a fully resolved
index 1 on the successor track. -/
def c10Tbl : IndexTable :=
  ⟨[⟨1, true, [⟨1, some 0, "x.wav", 0, none⟩]⟩,
    ⟨2, true, [⟨1, some 1000, "x.wav", 0, none⟩]⟩], none⟩

-- ## Helper lemmas

theorem pyIdx_nat {α : Type _} (l : List α) (i : Nat) : pyIdx l (i : Int) = l.get? i := by
  simp [pyIdx]

theorem pyIdx_neg_one {α : Type _} (l : List α) : pyIdx l (-1) = l.getLast? := by
  unfold pyIdx
  rw [if_neg (by omega)]
  rcases l with _ | ⟨a, as⟩
  · simp
  · rw [if_pos (by simp)]
    rw [List.get?_eq_getElem?, List.getLast?_eq_getElem?]
    norm_num

theorem cddbSumAux_eq_digitsSum : ∀ fuel i, i ≤ fuel → cddbSumAux fuel i = (Nat.digits 10 i).sum := by
  intro fuel
  induction fuel with
  | zero =>
    intro i hi
    interval_cases i
    simp [cddbSumAux]
  | succ n ih =>
    intro i hi
    rcases Nat.eq_zero_or_pos i with h | h
    · subst h; simp [cddbSumAux]
    · rw [cddbSumAux, if_neg (by omega), Nat.digits_def' (by norm_num) h]
      rw [ih (i / 10) (by omega)]
      simp

/-- The `_cddbSum` loop computes the base-10 digit sum. -/
theorem cddbSum_eq_digitsSum (i : Nat) : cddbSum i = (Nat.digits 10 i).sum :=
  cddbSumAux_eq_digitsSum i i le_rfl

theorem isHexLowerChar_hexChar (d : Nat) (h : d < 16) : isHexLowerChar (hexChar d) = true := by
  interval_cases d <;> decide

theorem hexRep_chars : ∀ fuel n, ∀ c ∈ hexRep fuel n, isHexLowerChar c = true := by
  intro fuel
  induction fuel with
  | zero => intro n c hc; simp [hexRep] at hc
  | succ m ih =>
    intro n c hc
    rw [hexRep] at hc
    by_cases h : n = 0
    · rw [if_pos h] at hc; simp at hc
    · rw [if_neg h] at hc
      rcases List.mem_append.mp hc with h1 | h1
      · exact ih _ _ h1
      · simp at h1
        subst h1
        exact isHexLowerChar_hexChar _ (Nat.mod_lt _ (by norm_num))

theorem toHex_chars (n : Nat) : ∀ c ∈ (toHex n).data, isHexLowerChar c = true := by
  unfold toHex
  by_cases h : n = 0
  · rw [if_pos h]; decide
  · rw [if_neg h]; exact hexRep_chars n n

theorem format08x_chars (n : Nat) : (format08x n).data.all isHexLowerChar = true := by
  rw [List.all_eq_true]
  intro c hc
  unfold format08x at hc
  simp only [String.data] at hc
  rcases List.mem_append.mp hc with h1 | h1
  · rw [List.eq_of_mem_replicate h1]; decide
  · exact toHex_chars n c h1

theorem hexRep_length_le : ∀ fuel n k, n < 16 ^ k → (hexRep fuel n).length ≤ k := by
  intro fuel
  induction fuel with
  | zero => intro n k _; simp [hexRep]
  | succ m ih =>
    intro n k hk
    rw [hexRep]
    by_cases h : n = 0
    · simp [h]
    · rw [if_neg h]
      rcases k with _ | j
      · omega
      · have : n / 16 < 16 ^ j := by
          rw [Nat.div_lt_iff_lt_mul (by norm_num)]
          calc n < 16 ^ (j + 1) := hk
            _ = 16 ^ j * 16 := by ring
        have := ih (n / 16) j this
        simp only [List.length_append, List.length_singleton]
        omega

theorem toHex_length_le (n k : Nat) (h1 : 1 ≤ k) (h : n < 16 ^ k) : (toHex n).length ≤ k := by
  unfold toHex
  by_cases h0 : n = 0
  · rw [if_pos h0]; simpa using h1
  · rw [if_neg h0, String.length_mk]
    exact hexRep_length_le n n k h

theorem format08x_length (n : Nat) :
    (format08x n).length = (8 - (toHex n).length) + (toHex n).length := by
  unfold format08x
  rw [String.length_mk, List.length_append, List.length_replicate]
  rfl

theorem format08x_length_ge (n : Nat) : 8 ≤ (format08x n).length := by
  rw [format08x_length]; omega

theorem format08x_length_eq (n : Nat) (h : n < 16 ^ 8) : (format08x n).length = 8 := by
  have := toHex_length_le n 8 (by norm_num) h
  rw [format08x_length]; omega

theorem is8lowerhex_format08x (n : Nat) (h : n < 16 ^ 8) : is8lowerhex (format08x n) = true := by
  unfold is8lowerhex
  rw [Bool.and_eq_true, beq_iff_eq]
  exact ⟨format08x_length_eq n h, format08x_chars n⟩

theorem masked_lt (x : Nat) : x &&& 0xffffffff < 16 ^ 8 :=
  lt_of_le_of_lt Nat.and_le_right (by norm_num)

theorem ite_zero_one_eq_max (x : Nat) : (if x = 0 then 1 else x) = max x 1 := by
  rcases Nat.eq_zero_or_pos x with h | h
  · subst h; simp
  · rw [if_neg (by omega), Nat.max_eq_left (by omega)]

/-- When every queried start succeeds, the `getCDDBDiscId` loop computes
the sum of the per-track digit sums. -/
theorem cddbLoop_eq (startF : Nat → Option Nat) (s : Nat → Nat) :
    ∀ (nums : List Nat), (∀ k ∈ nums, startF k = some (s k)) → ∀ n0,
      cddbLoop startF nums n0 = some (n0 +
        (nums.map (fun k => cddbSum ((s k + 2 * FRAMES_PER_SECOND) / FRAMES_PER_SECOND))).sum) := by
  intro nums
  induction nums with
  | nil => intro _ n0; simp [cddbLoop]
  | cons num rest ih =>
    intro h n0
    rw [cddbLoop, h num (List.mem_cons_self _ _), Option.some_bind,
      ih (fun k hk => h k (List.mem_cons_of_mem _ hk))]
    simp only [List.map_cons, List.sum_cons]
    congr 1
    omega

/-- Characterization of the shared `getCDDBDiscId` body when every
boundary query succeeds. -/
theorem getCDDBDiscIdG_eq (startF endF : Nat → Option Nat) (numbers : List Nat) (s : Nat → Nat)
    (lastN e : Nat)
    (hlast : numbers.getLast? = some lastN)
    (hs : ∀ k ∈ numbers, startF k = some (s k))
    (hs1 : startF 1 = some (s 1))
    (he : endF lastN = some e) :
    getCDDBDiscIdG startF endF numbers = some (format08x
      ((((numbers.map (fun k => cddbSum ((s k + 2 * FRAMES_PER_SECOND) / FRAMES_PER_SECOND))).sum % 0xff) <<< 24) |||
        (((e - s 1) / FRAMES_PER_SECOND) <<< 8) ||| numbers.length)) := by
  unfold getCDDBDiscIdG
  rw [cddbLoop_eq startF s numbers hs 0, Option.some_bind, pyIdx_neg_one, hlast,
    Option.some_bind, he, Option.some_bind, hs1, Option.map_some']
  norm_num

/-- When every queried audio-track start succeeds, the `getAccurateRipIds`
loop computes the two audio-track sums. -/
theorem arLoop_eq (startF : Nat → Option Nat) (s : Nat → Nat) :
    ∀ (l : List (Nat × Bool)), (∀ p ∈ l, p.2 = true → startF p.1 = some (s p.1)) → ∀ d1 d2,
      arLoop startF l d1 d2 = some
        (d1 + ((l.filter (·.2)).map (fun p => s p.1)).sum,
         d2 + ((l.filter (·.2)).map (fun p => (if s p.1 = 0 then 1 else s p.1) * p.1)).sum) := by
  intro l
  induction l with
  | nil => intro _ d1 d2; simp [arLoop]
  | cons p rest ih =>
    intro h d1 d2
    obtain ⟨num, audio⟩ := p
    rw [arLoop]
    cases audio with
    | false =>
      rw [if_pos rfl, ih (fun q hq => h q (List.mem_cons_of_mem _ hq))]
      simp [List.filter_cons]
    | true =>
      rw [if_neg (by simp), h (num, true) (List.mem_cons_self _ _) rfl, Option.some_bind,
        ih (fun q hq => h q (List.mem_cons_of_mem _ hq))]
      rw [List.filter_cons_of_pos (by rfl)]
      simp only [List.map_cons, List.sum_cons]
      rw [Option.some_inj, Prod.mk.injEq]
      exact ⟨by omega, by omega⟩

/-- Characterization of the shared `getAccurateRipIds` body when every
boundary query succeeds. -/
theorem getAccurateRipIdsG_eq (startF endF : Nat → Option Nat) (l : List (Nat × Bool))
    (s : Nat → Nat) (lastP : Nat × Bool) (e : Nat)
    (hlast : l.getLast? = some lastP)
    (hs : ∀ p ∈ l, p.2 = true → startF p.1 = some (s p.1))
    (he : endF lastP.1 = some e) :
    getAccurateRipIdsG startF endF l = some
      (format08x ((((l.filter (·.2)).map (fun p => s p.1)).sum + (e + 1)) &&& 0xffffffff),
       format08x ((((l.filter (·.2)).map (fun p => max (s p.1) 1 * p.1)).sum +
         (e + 1) * ((l.filter (·.2)).length + 1)) &&& 0xffffffff)) := by
  unfold getAccurateRipIdsG
  rw [arLoop_eq startF s l hs 0 0, Option.some_bind, pyIdx_neg_one, hlast,
    Option.some_bind, he, Option.map_some']
  simp only [ite_zero_one_eq_max]
  norm_num

/-- Any string produced by the `getCDDBDiscId` body is a `format08x`
rendering of some value. -/
theorem getCDDBDiscIdG_shape (startF endF : Nat → Option Nat) (numbers : List Nat) (str : String)
    (h : getCDDBDiscIdG startF endF numbers = some str) : ∃ v, str = format08x v := by
  unfold getCDDBDiscIdG at h
  rcases Option.bind_eq_some.mp h with ⟨n, _, h⟩
  rcases Option.bind_eq_some.mp h with ⟨lastN, _, h⟩
  rcases Option.bind_eq_some.mp h with ⟨leadout, _, h⟩
  rcases Option.map_eq_some'.mp h with ⟨s1, _, h⟩
  exact ⟨_, h.symm⟩

/-- Any pair produced by the `getAccurateRipIds` body consists of two
strings of exactly 8 lowercase hex characters (the values are masked to
32 bits before formatting). -/
theorem getAccurateRipIdsG_is8 (startF endF : Nat → Option Nat) (l : List (Nat × Bool))
    (p : String × String) (h : getAccurateRipIdsG startF endF l = some p) :
    is8lowerhex p.1 = true ∧ is8lowerhex p.2 = true := by
  unfold getAccurateRipIdsG at h
  rcases Option.bind_eq_some.mp h with ⟨d, _, h⟩
  rcases Option.bind_eq_some.mp h with ⟨lastP, _, h⟩
  rcases Option.map_eq_some'.mp h with ⟨e, _, h⟩
  subst h
  exact ⟨is8lowerhex_format08x _ (masked_lt _), is8lowerhex_format08x _ (masked_lt _)⟩

/-- Under the §3 numbering invariant, the track stored at position `i` of
a flat `Table` carries number `i + 1`. -/
theorem Table.flatNumber_of_get (tbl : Table) (hv : tbl.validNumbering = true) :
    ∀ i (h : i < tbl.tracks.length), (tbl.tracks.get ⟨i, h⟩).number = i + 1 := by
  intro i h
  have h2 : i < tbl.tracks.enum.length := by simpa [List.enum_length] using h
  have hmem : tbl.tracks.enum.get ⟨i, h2⟩ ∈ tbl.tracks.enum := List.get_mem _ _ _
  have hall := List.all_eq_true.mp hv _ hmem
  have hm : tbl.tracks.enum.get ⟨i, h2⟩ = (i, tbl.tracks.get ⟨i, h⟩) := List.getElem_enum _ _ _
  rw [hm] at hall
  simpa using hall

/-- Under the numbering invariant, `getTrackStart` answers each stored
track by its own number. -/
theorem Table.getTrackStart_of_mem (tbl : Table) (hv : tbl.validNumbering = true)
    (t : Track) (ht : t ∈ tbl.tracks) : tbl.getTrackStart t.number = some t.start := by
  rcases List.mem_iff_getElem.mp ht with ⟨i, h, rfl⟩
  show tbl.getTrackStart (tbl.tracks.get ⟨i, h⟩).number = some (tbl.tracks.get ⟨i, h⟩).start
  rw [Table.flatNumber_of_get tbl hv i h]
  unfold Table.getTrackStart
  rw [show ((i + 1 : Nat) : Int) - 1 = ((i : Nat) : Int) by push_cast; ring, pyIdx_nat,
    List.get?_eq_getElem?, List.getElem?_eq_getElem h, Option.map_some']
  rfl

/-- Under the numbering invariant, `getTrackEnd` answers each stored track
by its own number. -/
theorem Table.getTrackEnd_of_mem (tbl : Table) (hv : tbl.validNumbering = true)
    (t : Track) (ht : t ∈ tbl.tracks) : tbl.getTrackEnd t.number = some t.«end» := by
  rcases List.mem_iff_getElem.mp ht with ⟨i, h, rfl⟩
  show tbl.getTrackEnd (tbl.tracks.get ⟨i, h⟩).number = some (tbl.tracks.get ⟨i, h⟩).«end»
  rw [Table.flatNumber_of_get tbl hv i h]
  unfold Table.getTrackEnd
  rw [show ((i + 1 : Nat) : Int) - 1 = ((i : Nat) : Int) by push_cast; ring, pyIdx_nat,
    List.get?_eq_getElem?, List.getElem?_eq_getElem h, Option.map_some']
  rfl

theorem Table.getTrackStart_one (tbl : Table) (first : Track)
    (h : tbl.tracks.head? = some first) : tbl.getTrackStart 1 = some first.start := by
  unfold Table.getTrackStart
  rw [show ((1 : Nat) : Int) - 1 = ((0 : Nat) : Int) by norm_num, pyIdx_nat,
    List.get?_eq_getElem?, ← List.head?_eq_getElem?, h, Option.map_some']

/-- Full characterization of `Table.getCDDBDiscId` on a well-numbered
non-empty flat table, with the accumulator expressed as the spec's
base-10 digit sums. -/
theorem Table.flatCddb_eq (tbl : Table) (first lastT : Track)
    (hv : tbl.validNumbering = true)
    (h1 : tbl.tracks.head? = some first)
    (h2 : tbl.tracks.getLast? = some lastT) :
    tbl.getCDDBDiscId = some (format08x
      ((((tbl.tracks.map (fun t => (Nat.digits 10 ((t.start + 2 * 75) / 75)).sum)).sum % 255) <<< 24) |||
        (((lastT.«end» - first.start) / 75) <<< 8) ||| tbl.tracks.length)) := by
  unfold Table.getCDDBDiscId
  have hs : ∀ k ∈ tbl.tracks.map (·.number), tbl.getTrackStart k =
      some ((tbl.getTrackStart k).getD 0) := by
    intro k hk
    rcases List.mem_map.mp hk with ⟨t, ht, rfl⟩
    rw [Table.getTrackStart_of_mem tbl hv t ht]
    rfl
  have hs1 : tbl.getTrackStart 1 = some ((tbl.getTrackStart 1).getD 0) := by
    rw [Table.getTrackStart_one tbl first h1]
    rfl
  have hlast : (tbl.tracks.map (·.number)).getLast? = some lastT.number := by
    rw [List.getLast?_map, h2]
    rfl
  have he : tbl.getTrackEnd lastT.number = some lastT.«end» :=
    Table.getTrackEnd_of_mem tbl hv lastT (List.mem_of_mem_getLast? h2)
  rw [getCDDBDiscIdG_eq tbl.getTrackStart tbl.getTrackEnd _
    (fun k => (tbl.getTrackStart k).getD 0) lastT.number lastT.«end» hlast hs hs1 he]
  have hmap : (tbl.tracks.map (·.number)).map
      (fun k => cddbSum (((tbl.getTrackStart k).getD 0 + 2 * FRAMES_PER_SECOND) / FRAMES_PER_SECOND)) =
      tbl.tracks.map (fun t => (Nat.digits 10 ((t.start + 2 * 75) / 75)).sum) := by
    rw [List.map_map]
    refine List.map_congr_left ?_
    intro t ht
    have hst := Table.getTrackStart_of_mem tbl hv t ht
    simp only [Function.comp, hst, Option.getD_some, cddbSum_eq_digitsSum, FRAMES_PER_SECOND]
  have hs1v : (tbl.getTrackStart 1).getD 0 = first.start := by
    rw [Table.getTrackStart_one tbl first h1]
    rfl
  rw [hmap, hs1v, List.length_map]
  rfl

/-- Full characterization of `Table.getAccurateRipIds` on a well-numbered
non-empty flat table. -/
theorem Table.flatAr_eq (tbl : Table) (lastT : Track)
    (hv : tbl.validNumbering = true)
    (h2 : tbl.tracks.getLast? = some lastT) :
    tbl.getAccurateRipIds = some
      (format08x ((((tbl.tracks.filter (·.audio)).map (·.start)).sum + (lastT.«end» + 1)) &&& 0xffffffff),
       format08x ((((tbl.tracks.filter (·.audio)).map (fun t => max t.start 1 * t.number)).sum +
         (lastT.«end» + 1) * (tbl.getAudioTracks + 1)) &&& 0xffffffff)) := by
  unfold Table.getAccurateRipIds
  have hs : ∀ p ∈ tbl.tracks.map (fun t => (t.number, t.audio)), p.2 = true →
      tbl.getTrackStart p.1 = some ((tbl.getTrackStart p.1).getD 0) := by
    intro p hp _
    rcases List.mem_map.mp hp with ⟨t, ht, rfl⟩
    rw [Table.getTrackStart_of_mem tbl hv t ht]
    rfl
  have hlast : (tbl.tracks.map (fun t => (t.number, t.audio))).getLast? =
      some (lastT.number, lastT.audio) := by
    rw [List.getLast?_map, h2]
    rfl
  have he : tbl.getTrackEnd (lastT.number, lastT.audio).1 = some lastT.«end» :=
    Table.getTrackEnd_of_mem tbl hv lastT (List.mem_of_mem_getLast? h2)
  rw [getAccurateRipIdsG_eq tbl.getTrackStart tbl.getTrackEnd _
    (fun k => (tbl.getTrackStart k).getD 0) (lastT.number, lastT.audio) lastT.«end» hlast hs he]
  have hfil : (tbl.tracks.map (fun t => (t.number, t.audio))).filter (·.2) =
      (tbl.tracks.filter (·.audio)).map (fun t => (t.number, t.audio)) := by
    rw [List.filter_map]
    rfl
  have hsum1 : ((tbl.tracks.map (fun t => (t.number, t.audio))).filter (·.2)).map
      (fun p => (tbl.getTrackStart p.1).getD 0) =
      (tbl.tracks.filter (·.audio)).map (·.start) := by
    rw [hfil, List.map_map]
    refine List.map_congr_left ?_
    intro t ht
    have hst := Table.getTrackStart_of_mem tbl hv t (List.mem_of_mem_filter ht)
    simp only [Function.comp, hst, Option.getD_some]
  have hsum2 : ((tbl.tracks.map (fun t => (t.number, t.audio))).filter (·.2)).map
      (fun p => max ((tbl.getTrackStart p.1).getD 0) 1 * p.1) =
      (tbl.tracks.filter (·.audio)).map (fun t => max t.start 1 * t.number) := by
    rw [hfil, List.map_map]
    refine List.map_congr_left ?_
    intro t ht
    have hst := Table.getTrackStart_of_mem tbl hv t (List.mem_of_mem_filter ht)
    simp only [Function.comp, hst, Option.getD_some]
  have hlen : ((tbl.tracks.map (fun t => (t.number, t.audio))).filter (·.2)).length =
      tbl.getAudioTracks := by
    rw [hfil, List.length_map]
    rfl
  rw [hsum1, hsum2, hlen]

theorem pyIdx_neg {α : Type _} (l : List α) (k : Nat) (h1 : 1 ≤ k) (h2 : k ≤ l.length) :
    pyIdx l (-(k : Int)) = l.get? (l.length - k) := by
  unfold pyIdx
  have ht : (-(-(k : Int))).toNat = k := by simp
  rw [if_neg (by omega), ht, if_pos h2]

/-- The last three characters of a list, recovered from the first three of
its reversal, are its Python `[-1]`, `[-2]`, `[-3]` entries. -/
theorem pyIdx_take3 {α : Type _} (l : List α) (d1 d2 d3 : α)
    (h : l.reverse.take 3 = [d1, d2, d3]) :
    pyIdx l (-1) = some d1 ∧ pyIdx l (-2) = some d2 ∧ pyIdx l (-3) = some d3 := by
  have hlen : 3 ≤ l.length := by
    have hl := congrArg List.length h
    simp only [List.length_take, List.length_reverse, List.length_cons, List.length_nil] at hl
    omega
  have g0 : l.reverse.get? 0 = some d1 := by
    rw [List.get?_eq_getElem?, show l.reverse[0]? = (l.reverse.take 3)[0]? by
      rw [List.getElem?_take]; norm_num, h]
    rfl
  have g1 : l.reverse.get? 1 = some d2 := by
    rw [List.get?_eq_getElem?, show l.reverse[1]? = (l.reverse.take 3)[1]? by
      rw [List.getElem?_take]; norm_num, h]
    rfl
  have g2 : l.reverse.get? 2 = some d3 := by
    rw [List.get?_eq_getElem?, show l.reverse[2]? = (l.reverse.take 3)[2]? by
      rw [List.getElem?_take]; norm_num, h]
    rfl
  refine ⟨?_, ?_, ?_⟩
  · rw [show (-1 : Int) = -((1 : Nat) : Int) by norm_num, pyIdx_neg l 1 (by omega) (by omega),
      List.get?_eq_getElem?, show l.length - 1 = l.length - 1 - 0 by omega,
      ← List.getElem?_reverse (by omega), ← List.get?_eq_getElem?]
    exact g0
  · rw [show (-2 : Int) = -((2 : Nat) : Int) by norm_num, pyIdx_neg l 2 (by omega) (by omega),
      List.get?_eq_getElem?, show l.length - 2 = l.length - 1 - 1 by omega,
      ← List.getElem?_reverse (by omega), ← List.get?_eq_getElem?]
    exact g1
  · rw [show (-3 : Int) = -((3 : Nat) : Int) by norm_num, pyIdx_neg l 3 (by omega) (by omega),
      List.get?_eq_getElem?, show l.length - 3 = l.length - 1 - 2 by omega,
      ← List.getElem?_reverse (by omega), ← List.get?_eq_getElem?]
    exact g2

/-- Characterization of the shared `getAccurateRipURL` body. -/
theorem getAccurateRipURLG_eq (ids : Option (String × String)) (cddb : Option String)
    (cnt : Nat) (i1 i2 c : String) (d1 d2 d3 : Char)
    (hid : ids = some (i1, i2)) (hc : cddb = some c)
    (h3 : i1.data.reverse.take 3 = [d1, d2, d3]) :
    getAccurateRipURLG ids cddb cnt = some
      ("http://www.accuraterip.com/accuraterip/" ++ String.singleton d1 ++ "/" ++
        String.singleton d2 ++ "/" ++ String.singleton d3 ++ "/dBAR-" ++
        format3d cnt ++ "-" ++ i1 ++ "-" ++ i2 ++ "-" ++ c ++ ".bin") := by
  obtain ⟨p1, p2, p3⟩ := pyIdx_take3 i1.data d1 d2 d3 h3
  unfold getAccurateRipURLG pyStr
  rw [hid, hc, Option.some_bind]
  simp only []
  rw [p1, Option.some_bind, p2, Option.some_bind, p3, Option.some_bind, Option.map_some']

/-- Under the §3 numbering invariant, the track stored at position `i` of
an `IndexTable` carries number `i + 1`. -/
theorem IndexTable.idxNumber_of_get (tbl : IndexTable) (hv : tbl.validNumbering = true) :
    ∀ i (h : i < tbl.tracks.length), (tbl.tracks.get ⟨i, h⟩).number = i + 1 := by
  intro i h
  have h2 : i < tbl.tracks.enum.length := by simpa [List.enum_length] using h
  have hmem : tbl.tracks.enum.get ⟨i, h2⟩ ∈ tbl.tracks.enum := List.get_mem _ _ _
  have hall := List.all_eq_true.mp hv _ hmem
  have hm : tbl.tracks.enum.get ⟨i, h2⟩ = (i, tbl.tracks.get ⟨i, h⟩) := List.getElem_enum _ _ _
  rw [hm] at hall
  simpa using hall

theorem IndexTable.head_number (tbl : IndexTable) (hv : tbl.validNumbering = true)
    (hne : tbl.tracks ≠ []) : (tbl.tracks.head hne).number = 1 := by
  have h0 : 0 < tbl.tracks.length := List.length_pos.mpr hne
  have := IndexTable.idxNumber_of_get tbl hv 0 h0
  rw [← List.get_mk_zero h0]
  exact this

theorem IndexTable.last_number (tbl : IndexTable) (hv : tbl.validNumbering = true)
    (hne : tbl.tracks ≠ []) : (tbl.tracks.getLast hne).number = tbl.tracks.length := by
  have h0 : 0 < tbl.tracks.length := List.length_pos.mpr hne
  have hlt : tbl.tracks.length - 1 < tbl.tracks.length := by omega
  have hn := IndexTable.idxNumber_of_get tbl hv (tbl.tracks.length - 1) hlt
  rw [List.getLast_eq_get, hn]
  omega

/-- Full characterization of `IndexTable.getCDDBDiscId` on a well-numbered
non-empty indexed table whose boundary queries resolve: `s` names the
resolved start of each track number. -/
theorem IndexTable.idxCddb_eq (tbl : IndexTable) (s : Nat → Nat) (e : Nat)
    (hv : tbl.validNumbering = true)
    (hne : tbl.tracks ≠ [])
    (hs : ∀ t ∈ tbl.tracks, tbl.getTrackStart t.number = some (s t.number))
    (he : tbl.getTrackEnd tbl.tracks.length = some e) :
    tbl.getCDDBDiscId = some (format08x
      ((((tbl.tracks.map (fun t => (Nat.digits 10 ((s t.number + 2 * 75) / 75)).sum)).sum % 255) <<< 24) |||
        (((e - s 1) / 75) <<< 8) ||| tbl.tracks.length)) := by
  unfold IndexTable.getCDDBDiscId
  have hs' : ∀ k ∈ tbl.tracks.map (·.number), tbl.getTrackStart k = some (s k) := by
    intro k hk
    rcases List.mem_map.mp hk with ⟨t, ht, rfl⟩
    exact hs t ht
  have hs1 : tbl.getTrackStart 1 = some (s 1) := by
    have hh := hs _ (List.head_mem hne)
    rwa [IndexTable.head_number tbl hv hne] at hh
  have hlast : (tbl.tracks.map (·.number)).getLast? = some tbl.tracks.length := by
    rw [List.getLast?_map, List.getLast?_eq_getLast _ hne, Option.map_some',
      IndexTable.last_number tbl hv hne]
  rw [getCDDBDiscIdG_eq tbl.getTrackStart tbl.getTrackEnd _ s tbl.tracks.length e hlast hs' hs1 he]
  have hmap : (tbl.tracks.map (·.number)).map
      (fun k => cddbSum ((s k + 2 * FRAMES_PER_SECOND) / FRAMES_PER_SECOND)) =
      tbl.tracks.map (fun t => (Nat.digits 10 ((s t.number + 2 * 75) / 75)).sum) := by
    rw [List.map_map]
    refine List.map_congr_left ?_
    intro t _
    simp only [Function.comp, cddbSum_eq_digitsSum, FRAMES_PER_SECOND]
  rw [hmap, List.length_map]
  rfl

/-- Full characterization of `IndexTable.getAccurateRipIds` on a non-empty
indexed table whose audio starts and final end resolve. -/
theorem IndexTable.idxAr_eq (tbl : IndexTable) (s : Nat → Nat) (lastT : ITTrack) (e : Nat)
    (hs : ∀ t ∈ tbl.tracks, t.audio = true → tbl.getTrackStart t.number = some (s t.number))
    (h2 : tbl.tracks.getLast? = some lastT)
    (he : tbl.getTrackEnd lastT.number = some e) :
    tbl.getAccurateRipIds = some
      (format08x ((((tbl.tracks.filter (·.audio)).map (fun t => s t.number)).sum + (e + 1)) &&& 0xffffffff),
       format08x ((((tbl.tracks.filter (·.audio)).map (fun t => max (s t.number) 1 * t.number)).sum +
         (e + 1) * (tbl.getAudioTracks + 1)) &&& 0xffffffff)) := by
  unfold IndexTable.getAccurateRipIds
  have hs' : ∀ p ∈ tbl.tracks.map (fun t => (t.number, t.audio)), p.2 = true →
      tbl.getTrackStart p.1 = some (s p.1) := by
    intro p hp hpa
    rcases List.mem_map.mp hp with ⟨t, ht, rfl⟩
    exact hs t ht hpa
  have hlast : (tbl.tracks.map (fun t => (t.number, t.audio))).getLast? =
      some (lastT.number, lastT.audio) := by
    rw [List.getLast?_map, h2]
    rfl
  have he' : tbl.getTrackEnd (lastT.number, lastT.audio).1 = some e := he
  rw [getAccurateRipIdsG_eq tbl.getTrackStart tbl.getTrackEnd _ s
    (lastT.number, lastT.audio) e hlast hs' he']
  have hfil : (tbl.tracks.map (fun t => (t.number, t.audio))).filter (·.2) =
      (tbl.tracks.filter (·.audio)).map (fun t => (t.number, t.audio)) := by
    rw [List.filter_map]
    rfl
  have hsum1 : ((tbl.tracks.map (fun t => (t.number, t.audio))).filter (·.2)).map
      (fun p => s p.1) = (tbl.tracks.filter (·.audio)).map (fun t => s t.number) := by
    rw [hfil, List.map_map]
    rfl
  have hsum2 : ((tbl.tracks.map (fun t => (t.number, t.audio))).filter (·.2)).map
      (fun p => max (s p.1) 1 * p.1) =
      (tbl.tracks.filter (·.audio)).map (fun t => max (s t.number) 1 * t.number) := by
    rw [hfil, List.map_map]
    rfl
  have hlen : ((tbl.tracks.map (fun t => (t.number, t.audio))).filter (·.2)).length =
      tbl.getAudioTracks := by
    rw [hfil, List.length_map]
    rfl
  rw [hsum1, hsum2, hlen]


-- ## Claim theorems

/-- C1, counterexample: the claim says the legacy identifier is always
exactly 8 hex characters with out-of-range values wrapping around; on the
one-track table `c1Big` (2^24 total seconds) the computed value reaches
2^32 and the returned string has 9 characters — the formatting lengthens,
it does not wrap. -/
theorem claim_C1_counterexample :
    Table.getCDDBDiscId c1Big = some "102000001" ∧
    (Table.getCDDBDiscId c1Big).map String.length ≠ some 8 := by
  decide

/-- C1, amended: for every table (flat or indexed) on which
`getCDDBDiscId` succeeds, the returned string consists of at least 8
lowercase hexadecimal characters, zero-padded to a minimum width of 8;
values too large for 32 bits lengthen the string instead of wrapping. -/
theorem claim_C1_amended :
    (∀ (tbl : Table) (str : String), tbl.getCDDBDiscId = some str →
      8 ≤ str.length ∧ str.data.all isHexLowerChar = true) ∧
    (∀ (tbl : IndexTable) (str : String), tbl.getCDDBDiscId = some str →
      8 ≤ str.length ∧ str.data.all isHexLowerChar = true) := by
  constructor
  · intro tbl str h
    obtain ⟨v, rfl⟩ := getCDDBDiscIdG_shape _ _ _ _ h
    exact ⟨format08x_length_ge v, format08x_chars v⟩
  · intro tbl str h
    obtain ⟨v, rfl⟩ := getCDDBDiscIdG_shape _ _ _ _ h
    exact ⟨format08x_length_ge v, format08x_chars v⟩

/-- C1, witness: the amended statement applied to the concrete one-track
tables `c1FlatW` and `c1IdxW`, both of which return "02006301". -/
theorem claim_C1_witness :
    (8 ≤ "02006301".length ∧ "02006301".data.all isHexLowerChar = true) ∧
    (8 ≤ "02006301".length ∧ "02006301".data.all isHexLowerChar = true) :=
  ⟨claim_C1_amended.1 c1FlatW "02006301" (by decide),
   claim_C1_amended.2 c1IdxW "02006301" (by decide)⟩

/-- C2: on every non-empty well-numbered table (flat or indexed, the
latter with resolved boundaries), `getCDDBDiscId` returns
`((n mod 255) << 24) | (totalSeconds << 8) | trackCount` rendered by the
8-wide zero-padded lowercase hex formatter, where `n` sums the base-10
digit sums of `floor((trackStart(t) + 2*75) / 75)` over all tracks (audio
and data alike) and `totalSeconds = floor((trackEnd(last) -
trackStart(1)) / 75)`. -/
theorem claim_C2 :
    (∀ (tbl : Table) (first lastT : Track),
      tbl.validNumbering = true →
      tbl.tracks.head? = some first →
      tbl.tracks.getLast? = some lastT →
      tbl.getCDDBDiscId = some (format08x
        ((((tbl.tracks.map (fun t => (Nat.digits 10 ((t.start + 2 * 75) / 75)).sum)).sum % 255) <<< 24) |||
          (((lastT.«end» - first.start) / 75) <<< 8) ||| tbl.tracks.length))) ∧
    (∀ (tbl : IndexTable) (s : Nat → Nat) (e : Nat),
      tbl.validNumbering = true →
      tbl.tracks ≠ [] →
      (∀ t ∈ tbl.tracks, tbl.getTrackStart t.number = some (s t.number)) →
      tbl.getTrackEnd tbl.tracks.length = some e →
      tbl.getCDDBDiscId = some (format08x
        ((((tbl.tracks.map (fun t => (Nat.digits 10 ((s t.number + 2 * 75) / 75)).sum)).sum % 255) <<< 24) |||
          (((e - s 1) / 75) <<< 8) ||| tbl.tracks.length))) :=
  ⟨fun tbl first lastT hv h1 h2 => Table.flatCddb_eq tbl first lastT hv h1 h2,
   fun tbl s e hv hne hs he => IndexTable.idxCddb_eq tbl s e hv hne hs he⟩

/-- C2, witness: the statement applied to the concrete tables `c2Flat`
and `c2Idx` with their resolved boundary values. -/
theorem claim_C2_witness :
    Table.getCDDBDiscId c2Flat = some (format08x
      ((((c2Flat.tracks.map (fun t => (Nat.digits 10 ((t.start + 2 * 75) / 75)).sum)).sum % 255) <<< 24) |||
        ((((⟨2, 7500, 15000, true⟩ : Track).«end» - (⟨1, 0, 7499, true⟩ : Track).start) / 75) <<< 8) |||
        c2Flat.tracks.length)) ∧
    IndexTable.getCDDBDiscId c2Idx = some (format08x
      ((((c2Idx.tracks.map (fun t => (Nat.digits 10 ((c2s t.number + 2 * 75) / 75)).sum)).sum % 255) <<< 24) |||
        (((2999 - c2s 1) / 75) <<< 8) ||| c2Idx.tracks.length)) :=
  ⟨claim_C2.1 c2Flat ⟨1, 0, 7499, true⟩ ⟨2, 7500, 15000, true⟩ (by decide) (by decide) (by decide),
   claim_C2.2 c2Idx c2s 2999 (by decide) (by decide) (by decide) (by decide)⟩

/-- C3: on every table with non-negative (here: natural) start offsets
whose boundary queries resolve, `getAccurateRipIds` returns
`id1 = sum of audio-track starts + (trackEnd(last overall) + 1)` and
`id2 = sum of max(start, 1) * number over audio tracks + (trackEnd(last
overall) + 1) * (audioTrackCount + 1)`, both truncated with
`&&& 0xffffffff` and rendered as exactly 8 lowercase zero-padded hex
characters (the last two conjuncts). -/
theorem claim_C3 :
    (∀ (tbl : Table) (lastT : Track),
      tbl.validNumbering = true →
      tbl.tracks.getLast? = some lastT →
      tbl.getAccurateRipIds = some
        (format08x ((((tbl.tracks.filter (·.audio)).map (·.start)).sum + (lastT.«end» + 1)) &&& 0xffffffff),
         format08x ((((tbl.tracks.filter (·.audio)).map (fun t => max t.start 1 * t.number)).sum +
           (lastT.«end» + 1) * (tbl.getAudioTracks + 1)) &&& 0xffffffff))) ∧
    (∀ (tbl : IndexTable) (s : Nat → Nat) (lastT : ITTrack) (e : Nat),
      (∀ t ∈ tbl.tracks, t.audio = true → tbl.getTrackStart t.number = some (s t.number)) →
      tbl.tracks.getLast? = some lastT →
      tbl.getTrackEnd lastT.number = some e →
      tbl.getAccurateRipIds = some
        (format08x ((((tbl.tracks.filter (·.audio)).map (fun t => s t.number)).sum + (e + 1)) &&& 0xffffffff),
         format08x ((((tbl.tracks.filter (·.audio)).map (fun t => max (s t.number) 1 * t.number)).sum +
           (e + 1) * (tbl.getAudioTracks + 1)) &&& 0xffffffff))) ∧
    (∀ (tbl : Table) (p : String × String), tbl.getAccurateRipIds = some p →
      is8lowerhex p.1 = true ∧ is8lowerhex p.2 = true) ∧
    (∀ (tbl : IndexTable) (p : String × String), tbl.getAccurateRipIds = some p →
      is8lowerhex p.1 = true ∧ is8lowerhex p.2 = true) :=
  ⟨fun tbl lastT hv h2 => Table.flatAr_eq tbl lastT hv h2,
   fun tbl s lastT e hs h2 he => IndexTable.idxAr_eq tbl s lastT e hs h2 he,
   fun _ p h => getAccurateRipIdsG_is8 _ _ _ p h,
   fun _ p h => getAccurateRipIdsG_is8 _ _ _ p h⟩

/-- C3, witness: the statement applied to the concrete tables `c3Flat`
(audio + data track) and `c3Idx`, including the 8-hex-character form of
the concrete identifier strings they return. -/
theorem claim_C3_witness :
    Table.getAccurateRipIds c3Flat = some
      (format08x ((((c3Flat.tracks.filter (·.audio)).map (·.start)).sum +
        ((⟨2, 101, 200, false⟩ : Track).«end» + 1)) &&& 0xffffffff),
       format08x ((((c3Flat.tracks.filter (·.audio)).map (fun t => max t.start 1 * t.number)).sum +
        ((⟨2, 101, 200, false⟩ : Track).«end» + 1) * (c3Flat.getAudioTracks + 1)) &&& 0xffffffff)) ∧
    IndexTable.getAccurateRipIds c3Idx = some
      (format08x ((((c3Idx.tracks.filter (·.audio)).map (fun t => c3s t.number)).sum + (2999 + 1)) &&& 0xffffffff),
       format08x ((((c3Idx.tracks.filter (·.audio)).map (fun t => max (c3s t.number) 1 * t.number)).sum +
        (2999 + 1) * (c3Idx.getAudioTracks + 1)) &&& 0xffffffff)) ∧
    (is8lowerhex "000000c9" = true ∧ is8lowerhex "00000193" = true) ∧
    (is8lowerhex "00000bb8" = true ∧ is8lowerhex "00001771" = true) :=
  ⟨claim_C3.1 c3Flat ⟨2, 101, 200, false⟩ (by decide) (by decide),
   claim_C3.2.1 c3Idx c3s ⟨2, false, [⟨1, some 1000, "track02.wav", 0, none⟩]⟩ 2999
     (by decide) (by decide) (by decide),
   claim_C3.2.2.1 c3Flat ("000000c9", "00000193") (by decide),
   claim_C3.2.2.2 c3Idx ("00000bb8", "00001771") (by decide)⟩

/-- C4: in the `getAccurateRipIds` per-track loop (shared by both table
kinds), an audio track whose resolved start offset is 0 contributes
`1 * trackNumber` to the `id2` accumulator (the zero offset is replaced by
1 via Python `offset or 1`), while an audio track with positive start `s`
contributes `s * trackNumber` unchanged; `id1` receives the raw offset in
both cases. -/
theorem claim_C4 (startF : Nat → Option Nat) (num : Nat) (rest : List (Nat × Bool)) (d1 d2 : Nat) :
    (startF num = some 0 →
      arLoop startF ((num, true) :: rest) d1 d2 = arLoop startF rest (d1 + 0) (d2 + 1 * num)) ∧
    (∀ s, 0 < s → startF num = some s →
      arLoop startF ((num, true) :: rest) d1 d2 = arLoop startF rest (d1 + s) (d2 + s * num)) := by
  constructor
  · intro h
    rw [arLoop, if_neg (by simp), h, Option.some_bind, if_pos rfl]
  · intro s hs h
    rw [arLoop, if_neg (by simp), h, Option.some_bind, if_neg (by omega)]

/-- C4, witness: the statement applied to the loop of the concrete table
`c4Tbl`, whose track 1 is an audio track starting at frame 0 and whose
track 2 starts at frame 101. -/
theorem claim_C4_witness :
    (arLoop c4Tbl.getTrackStart [(1, true)] 0 0 =
      arLoop c4Tbl.getTrackStart [] (0 + 0) (0 + 1 * 1)) ∧
    (arLoop c4Tbl.getTrackStart [(2, true)] 0 0 =
      arLoop c4Tbl.getTrackStart [] (0 + 101) (0 + 101 * 2)) :=
  ⟨(claim_C4 c4Tbl.getTrackStart 1 [] 0 0).1 (by decide),
   (claim_C4 c4Tbl.getTrackStart 2 [] 0 0).2 101 (by decide) (by decide)⟩

/-- C5, failing input (code bug): emitting `c5Tbl` — tracks 2 and 3 both
stored in `b.wav`, track 1 in `a.wav` — produces the `FILE "b.wav" WAVE`
line twice, although the second `b.wav` index directly follows an index of
the same file: the source never updates `currentPath` after emitting a new
`FILE` line, so every index is compared against the first file's path.
The claim's "a new FILE line is emitted exactly when the current index's
path differs from the most-recently-emitted path" fails; the trailing
empty line, however, is present. -/
theorem claim_C5_failing :
    IndexTable.cueLines c5Tbl = some
      ["FILE \"a.wav\" WAVE",
       "  TRACK 01 AUDIO",
       "    INDEX 01 00:00:00",
       "  TRACK 02 AUDIO",
       "FILE \"b.wav\" WAVE",
       "    INDEX 01 00:00:00",
       "  TRACK 03 AUDIO",
       "FILE \"b.wav\" WAVE",
       "    INDEX 01 00:01:25",
       ""] ∧
    ((IndexTable.cueLines c5Tbl).map (fun ls => ls.count "FILE \"b.wav\" WAVE")) = some 2 := by
  decide

/-- Cross-check of the embedding of `cue()` (and of the spec-modelled
`framesToMSF`): it reproduces the expected output of the repository's own
`WriteCueTestCase.testWrite` unit test verbatim. -/
theorem cue_matches_unit_test :
    IndexTable.cue cueTestTbl = some
      "FILE \"track01.wav\" WAVE\n  TRACK 01 AUDIO\n    INDEX 01 00:00:00\n  TRACK 02 AUDIO\n    INDEX 00 00:13:25\nFILE \"track02.wav\" WAVE\n    INDEX 01 00:00:00\n" := by
  decide

/-- C6: whenever a track's end is unknown — the leadout is unresolved, or
the end would come from the next track and that track's index 1 (or its
absolute position) is missing — `getTrackEnd` and `getTrackLength` return
the distinguished `none`, which no numeric `some` value can equal, rather
than any number. -/
theorem claim_C6 (tbl : IndexTable) (n : Nat)
    (h : tbl.leadout = none ∨ (n < tbl.tracks.length ∧
      ((tbl.tracks.get? n).bind (fun tr => (tr.getIndex 1).bind (·.absolute))) = none)) :
    tbl.getTrackEnd n = none ∧ tbl.getTrackLength n = none := by
  have hend : tbl.getTrackEnd n = none := by
    unfold IndexTable.getTrackEnd
    rcases h with h | ⟨hlt, hmiss⟩
    · rw [h]
      rfl
    · rcases hl : tbl.leadout with _ | l
      · rfl
      · rw [Option.some_bind, dif_pos hlt]
        rw [List.get?_eq_getElem?, List.getElem?_eq_getElem hlt] at hmiss
        rw [Option.some_bind] at hmiss
        rcases hidx : (tbl.tracks.get ⟨n, hlt⟩).getIndex 1 with _ | idx
        · rfl
        · rw [show (tbl.tracks[n] : ITTrack) = tbl.tracks.get ⟨n, hlt⟩ from rfl, hidx,
            Option.some_bind] at hmiss
          rw [Option.some_bind, hmiss]
          rfl
  refine ⟨hend, ?_⟩
  unfold IndexTable.getTrackLength
  rcases hpy : pyIdx tbl.tracks ((n : Int) - 1) with _ | tr
  · rfl
  · rw [Option.some_bind, hend]
    rfl

/-- C6, witness: on the one-track table `c6Tbl` with unresolved leadout,
both queries for track 1 answer `none`. -/
theorem claim_C6_witness :
    IndexTable.getTrackEnd c6Tbl 1 = none ∧ IndexTable.getTrackLength c6Tbl 1 = none :=
  claim_C6 c6Tbl 1 (Or.inl rfl)

/-- C7: whenever the two accuracy identifiers and the legacy identifier
resolve, `getAccurateRipURL` (flat and indexed alike) returns the fixed
AccurateRip URL built from the last, second-to-last and third-to-last
characters of `id1`, the 3-zero-padded track count, both identifiers and
the legacy identifier, with `.bin` suffix. -/
theorem claim_C7 :
    (∀ (tbl : Table) (i1 i2 c : String) (d1 d2 d3 : Char),
      tbl.getAccurateRipIds = some (i1, i2) →
      tbl.getCDDBDiscId = some c →
      i1.data.reverse.take 3 = [d1, d2, d3] →
      tbl.getAccurateRipURL = some
        ("http://www.accuraterip.com/accuraterip/" ++ String.singleton d1 ++ "/" ++
          String.singleton d2 ++ "/" ++ String.singleton d3 ++ "/dBAR-" ++
          format3d tbl.tracks.length ++ "-" ++ i1 ++ "-" ++ i2 ++ "-" ++ c ++ ".bin")) ∧
    (∀ (tbl : IndexTable) (i1 i2 c : String) (d1 d2 d3 : Char),
      tbl.getAccurateRipIds = some (i1, i2) →
      tbl.getCDDBDiscId = some c →
      i1.data.reverse.take 3 = [d1, d2, d3] →
      tbl.getAccurateRipURL = some
        ("http://www.accuraterip.com/accuraterip/" ++ String.singleton d1 ++ "/" ++
          String.singleton d2 ++ "/" ++ String.singleton d3 ++ "/dBAR-" ++
          format3d tbl.tracks.length ++ "-" ++ i1 ++ "-" ++ i2 ++ "-" ++ c ++ ".bin")) := by
  constructor
  · intro tbl i1 i2 c d1 d2 d3 hid hc h3
    unfold Table.getAccurateRipURL
    exact getAccurateRipURLG_eq _ _ _ i1 i2 c d1 d2 d3 hid hc h3
  · intro tbl i1 i2 c d1 d2 d3 hid hc h3
    unfold IndexTable.getAccurateRipURL
    exact getAccurateRipURLG_eq _ _ _ i1 i2 c d1 d2 d3 hid hc h3

/-- C7, witness: the URL statement applied to the concrete tables
`c7Flat` and `c7Idx` and their concretely computed identifiers. -/
theorem claim_C7_witness :
    Table.getAccurateRipURL c7Flat = some
      ("http://www.accuraterip.com/accuraterip/" ++ String.singleton 'c' ++ "/" ++
        String.singleton '4' ++ "/" ++ String.singleton 'd' ++ "/dBAR-" ++
        format3d c7Flat.tracks.length ++ "-" ++ "00001d4c" ++ "-" ++ "00003a99" ++ "-" ++
        "02006301" ++ ".bin") ∧
    IndexTable.getAccurateRipURL c7Idx = some
      ("http://www.accuraterip.com/accuraterip/" ++ String.singleton '0' ++ "/" ++
        String.singleton 'a' ++ "/" ++ String.singleton 'f' ++ "/dBAR-" ++
        format3d c7Idx.tracks.length ++ "-" ++ "00000fa0" ++ "-" ++ "00002af9" ++ "-" ++
        "08002702" ++ ".bin") :=
  ⟨claim_C7.1 c7Flat "00001d4c" "00003a99" "02006301" 'c' '4' 'd'
     (by decide) (by decide) (by decide),
   claim_C7.2 c7Idx "00000fa0" "00002af9" "08002702" '0' 'a' 'f'
     (by decide) (by decide) (by decide)⟩

/-- C8: on both table kinds, whenever `getTrackStart n` and
`getTrackEnd n` resolve to `s` and `e`, `getTrackLength n` resolves to
`e - s + 1`. -/
theorem claim_C8 :
    (∀ (tbl : Table) (n s e : Nat), tbl.getTrackStart n = some s →
      tbl.getTrackEnd n = some e → tbl.getTrackLength n = some (e - s + 1)) ∧
    (∀ (tbl : IndexTable) (n s e : Nat), tbl.getTrackStart n = some s →
      tbl.getTrackEnd n = some e → tbl.getTrackLength n = some (e - s + 1)) := by
  constructor
  · intro tbl n s e hs he
    unfold Table.getTrackStart at hs
    unfold Table.getTrackEnd at he
    unfold Table.getTrackLength
    rcases Option.map_eq_some'.mp hs with ⟨t, hpy, hts⟩
    rcases Option.map_eq_some'.mp he with ⟨t2, hpy2, hte⟩
    rw [hpy] at hpy2
    injection hpy2 with h2
    subst h2
    rw [hpy, Option.map_some', hts, hte]
  · intro tbl n s e hs he
    have hs' := hs
    unfold IndexTable.getTrackStart at hs'
    rcases Option.bind_eq_some.mp hs' with ⟨tr, hpy, _⟩
    unfold IndexTable.getTrackLength
    rw [hpy, Option.some_bind, he, Option.some_bind, hs, Option.map_some']

/-- C8, witness: the statement applied to the concrete tables `c8Flat`
(track 1 spans frames 10..20) and `c8Idx` (track 1 spans frames
100..999). -/
theorem claim_C8_witness :
    Table.getTrackLength c8Flat 1 = some (20 - 10 + 1) ∧
    IndexTable.getTrackLength c8Idx 1 = some (999 - 100 + 1) :=
  ⟨claim_C8.1 c8Flat 1 10 20 (by decide) (by decide),
   claim_C8.2 c8Idx 1 100 999 (by decide) (by decide)⟩

/-- C9: a flat table with no tracks makes both identifier queries fail
(the empty-table precondition, `tracks[-1]` raising, modelled as `none`)
instead of returning identifier strings, while a well-numbered table with
at least one track makes both succeed. -/
theorem claim_C9 (tbl : Table) :
    (tbl.tracks = [] → tbl.getCDDBDiscId = none ∧ tbl.getAccurateRipIds = none) ∧
    (tbl.validNumbering = true → tbl.tracks ≠ [] →
      (tbl.getCDDBDiscId).isSome = true ∧ (tbl.getAccurateRipIds).isSome = true) := by
  constructor
  · intro h
    obtain ⟨tracks⟩ := tbl
    simp only at h
    subst h
    exact ⟨rfl, rfl⟩
  · intro hv hne
    obtain ⟨first, h1⟩ : ∃ f, tbl.tracks.head? = some f := ⟨_, List.head?_eq_head hne⟩
    obtain ⟨lastT, h2⟩ : ∃ l, tbl.tracks.getLast? = some l := ⟨_, List.getLast?_eq_getLast _ hne⟩
    rw [Table.flatCddb_eq tbl first lastT hv h1 h2, Table.flatAr_eq tbl lastT hv h2]
    exact ⟨rfl, rfl⟩

/-- C9, witness: the statement applied to the empty flat table and to the
concrete one-track table `c9W`. -/
theorem claim_C9_witness :
    (Table.getCDDBDiscId ⟨[]⟩ = none ∧ Table.getAccurateRipIds ⟨[]⟩ = none) ∧
    ((Table.getCDDBDiscId c9W).isSome = true ∧ (Table.getAccurateRipIds c9W).isSome = true) :=
  ⟨(claim_C9 ⟨[]⟩).1 rfl, (claim_C9 c9W).2 (by decide) (by decide)⟩

/-- C10: when an `IndexTable`'s leadout is unset, `getTrackEnd n` fails
for EVERY track number `n` — also for non-last tracks whose successor's
index 1 is fully resolved — because `end = self.leadout - 1` is computed
unconditionally before the next-track case is examined. -/
theorem claim_C10 (tbl : IndexTable) (n : Nat) (h : tbl.leadout = none) :
    tbl.getTrackEnd n = none := by
  unfold IndexTable.getTrackEnd
  rw [h]
  rfl

/-- C10, witness: on `c10Tbl` — leadout unset but track 2's index 1
resolved at frame 1000 — `getTrackEnd 1` still fails even though the
successor data would determine the end. -/
theorem claim_C10_witness : IndexTable.getTrackEnd c10Tbl 1 = none :=
  claim_C10 c10Tbl 1 rfl
